import Mathlib

/-!
Verification of the perceval StackExchange backend
(`src/perceval/backends/stackexchange.py`) and of the git-blame backend
documented by its tests (`src/tests/test_gitblame.py`), as a shallow
embedding in Lean 4.

The HTTP layer is modelled by an oracle: a finite list of `Response`
values, the k-th of which is the body and status the server returns to
the k-th request issued by the client during the run.
-/

namespace Perceval

/-- A harvested question.  The backend treats questions as opaque JSON
objects; we model them as opaque tokens. -/
def Question := String
deriving DecidableEq, Repr

/-- Modelled from the spec: `perceval.utils` (not under `src/`) supplies
`DEFAULT_DATETIME`, the "beginning of time" default (1970-01-01).  A
Python `datetime` is modelled by the integer that
`int(time.mktime(d.timetuple()))` produces for it, which is all the
backend ever computes from one. -/
structure Datetime where
  epoch : Int
deriving DecidableEq, Repr

/-- Modelled from the spec: the "beginning of time" default datetime
(1970-01-01), whose epoch value is 0. -/
def DEFAULT_DATETIME : Datetime := ⟨0⟩

/-- The fixed response-shaping filter token (`QUESTIONS_FILTER` in
`stackexchange.py`). -/
def QUESTIONS_FILTER : String := "Bf*y*ByQD_upZqozgU6lXL_62USGOoV3)MFNgiHqHpmO_Y-jHR"

/-- `MAX_QUESTIONS` in `stackexchange.py`. -/
def MAX_QUESTIONS : Nat := 100

/-- The constructor state of `StackExchangeClient`: `site`, `tagged`,
`token` and `max_questions`. -/
structure Client where
  site : String
  tagged : String
  token : String
  max_questions : Nat
deriving DecidableEq, Repr

/-- One entry of the oracle: the HTTP status of a response together
with the fields of its parsed JSON body that `get_questions` reads
(`items`, `page_size`, `total`, `has_more`, `quota_remaining`,
`quota_max`). -/
structure Response where
  status : Nat
  items : List Question
  page_size : Nat
  total : Nat
  has_more : Bool
  quota_remaining : Nat
  quota_max : Nat
deriving DecidableEq, Repr

/-- The query payload built by `StackExchangeClient.__build_payload`:
keys `page`, `pagesize`, `order`, `sort`, `tagged`, `site`, `key`,
`filter`, and (conditionally) `min`. -/
structure Payload where
  page : Nat
  pagesize : Nat
  order : String
  sort : String
  tagged : String
  site : String
  key : String
  filter : String
  min : Option Int
deriving DecidableEq, Repr

/-- `StackExchangeClient.__build_payload`: the `min` key is added iff
`from_date` is truthy (a Python `datetime` is always truthy; only
`None` — modelled as `none` — is falsy here), with value
`int(time.mktime(from_date.timetuple()))`, i.e. the datetime's epoch. -/
def buildPayload (client : Client) (page : Nat) (fromDate : Option Datetime)
    (order : String := "desc") (sort : String := "activity") : Payload :=
  { page := page
    pagesize := client.max_questions
    order := order
    sort := sort
    tagged := client.tagged
    site := client.site
    key := client.token
    filter := QUESTIONS_FILTER
    min := fromDate.map Datetime.epoch }

/-- `requests.Response.raise_for_status` (the `requests` library):
raises `HTTPError` exactly for 4xx client errors and 5xx server
errors. -/
def raiseForStatus (r : Response) : Bool :=
  (400 ≤ r.status && r.status < 600)

/-- `StackExchangeClient.__log_status`: the messages logged for one
response (rate limit first, then the fetch-progress line, with a
dedicated message when `total` is 0). -/
def logStatus (quota_remaining quota_max page_size total : Nat) : List String :=
  ("Rate limit: " ++ toString quota_remaining ++ "/" ++ toString quota_max) ::
  (if total ≠ 0 then
    (if total ≤ page_size then
      ["Fetching questions: " ++ toString total ++ "/" ++ toString total]
    else
      ["Fetching questions: " ++ toString page_size ++ "/" ++ toString total])
  else
    ["No questions were found."])

/-- The per-response increment of the `fetched` counter in
`get_questions`: `total if page_size >= total else page_size`. -/
def fetchedIncr (r : Response) : Nat :=
  if r.page_size ≥ r.total then r.total else r.page_size

/-- How a run of `get_questions` can fail: `http r` models
`raise_for_status` raising `requests.exceptions.HTTPError` on the
response `r` (the exception carries the whole response, structured
error body included); `noResponse` marks the oracle running out while
the client still wants a page (no behaviour of the code is modelled
past that point). -/
inductive RunError where
  | http (r : Response)
  | noResponse
deriving DecidableEq, Repr

/-- Everything observable about one full run of
`StackExchangeClient.get_questions`: the pages yielded (each a list of
questions), the payloads of the requests issued in order, the
responses whose bodies were consumed (in order), the log lines, the
value of `fetched` after each consumed response, and how the run
ended. -/
structure RunResult where
  yields : List (List Question)
  requests : List Payload
  received : List Response
  logs : List String
  fetchedTrace : List Nat
  error : Option RunError
deriving DecidableEq, Repr

/-- The `while questions:` loop of `get_questions`: `cur` is the
response whose items are about to be tested by the loop condition,
`rest` is the remaining oracle, `page` the page number of `cur`,
`fetched` the running counter.  On each iteration the current items
are yielded, and iff `has_more` is true the next page is requested;
a 4xx/5xx next response aborts the run via `raise_for_status`. -/
def questionsLoop (client : Client) (fromDate : Option Datetime) :
    List Response → Response → Nat → Nat → RunResult
  | rest, cur, page, fetched =>
    if cur.items.isEmpty then
      ⟨[], [], [], [], [], none⟩
    else
      if cur.has_more then
        let pl := buildPayload client (page + 1) fromDate
        match rest with
        | [] => ⟨[cur.items], [pl], [], [], [], some RunError.noResponse⟩
        | r :: rest' =>
          if raiseForStatus r then
            ⟨[cur.items], [pl], [], [], [], some (RunError.http r)⟩
          else
            let fetched' := fetched + fetchedIncr r
            let sub := questionsLoop client fromDate rest' r (page + 1) fetched'
            ⟨cur.items :: sub.yields,
             pl :: sub.requests,
             r :: sub.received,
             logStatus r.quota_remaining r.quota_max fetched' r.total ++ sub.logs,
             fetched' :: sub.fetchedTrace,
             sub.error⟩
      else
        ⟨[cur.items], [], [], [], [], none⟩

/-- `StackExchangeClient.get_questions` run to exhaustion against the
oracle `resps`: request page 1, `raise_for_status`, read the body,
initialise `fetched`, log, then enter the `while questions:` loop. -/
def get_questions (client : Client) (fromDate : Option Datetime)
    (resps : List Response) : RunResult :=
  let pl := buildPayload client 1 fromDate
  match resps with
  | [] => ⟨[], [pl], [], [], [], some RunError.noResponse⟩
  | r :: rest =>
    if raiseForStatus r then
      ⟨[], [pl], [], [], [], some (RunError.http r)⟩
    else
      let fetched := fetchedIncr r
      let sub := questionsLoop client fromDate rest r 1 fetched
      ⟨sub.yields,
       pl :: sub.requests,
       r :: sub.received,
       logStatus r.quota_remaining r.quota_max fetched r.total ++ sub.logs,
       fetched :: sub.fetchedTrace,
       sub.error⟩

/-- `StackExchange.fetch` begins with
`if not from_date: from_date = DEFAULT_DATETIME`: a falsy (unset)
bound is replaced by the beginning-of-time default. -/
def normalizeFromDate (fromDate : Option Datetime) : Datetime :=
  fromDate.getD DEFAULT_DATETIME

/-- The client run performed by `StackExchange.fetch`: the normalized
`from_date` (always a truthy datetime) is handed to
`get_questions`. -/
def fetchRun (client : Client) (fromDate : Option Datetime)
    (resps : List Response) : RunResult :=
  get_questions client (some (normalizeFromDate fromDate)) resps

/-- The cache and generator operations performed by `StackExchange.fetch`
and `StackExchange.fetch_from_cache`, in order: purging the staging
queue, pushing a question onto it, attempting a flush, yielding a
question to the consumer.  `request` is reserved for an HTTP request
(it lets a trace state that none is issued). -/
inductive Ev where
  | purge
  | push (q : Question)
  | flush
  | yieldq (q : Question)
  | request (page : Nat)
deriving DecidableEq, Repr

/-- The inner `for question in questions:` loop of `StackExchange.fetch`:
for every question, `_push_cache_queue`, `_flush_cache_queue`, then
`yield`, in that order. -/
def pageEvents : List Question → List Ev
  | [] => []
  | q :: qs => Ev.push q :: Ev.flush :: Ev.yieldq q :: pageEvents qs

/-- The outer `for questions in whole_page:` loop of
`StackExchange.fetch`. -/
def pagesEvents : List (List Question) → List Ev
  | [] => []
  | p :: ps => pageEvents p ++ pagesEvents ps

/-- The cache-operation trace of `StackExchange.fetch`:
`_purge_cache_queue` once at the start, then the nested loops over the
pages yielded by `get_questions`.  A consumer that abandons iteration
after the k-th yielded question has executed exactly the prefix of
this trace that ends at the k-th `yieldq` event. -/
def fetchEvents (client : Client) (fromDate : Option Datetime)
    (resps : List Response) : List Ev :=
  Ev.purge :: pagesEvents (fetchRun client fromDate resps).yields

/-- The error raised by `StackExchange.fetch_from_cache` when the
backend was constructed without a cache. -/
structure CacheError where
  cause : String
deriving DecidableEq, Repr

/-- `StackExchange.fetch_from_cache`: raises `CacheError` when the
backend has no cache, otherwise yields the questions of
`cache.retrieve()` in retrieval order.  The cache is modelled by the
list of items its `retrieve()` produces. -/
def fetch_from_cache (cache : Option (List Question)) :
    Except CacheError (List Question) :=
  match cache with
  | none => Except.error ⟨"cache instance was not provided"⟩
  | some items => Except.ok items

/-- The operation trace of `StackExchange.fetch_from_cache`: without a
cache the `CacheError` is raised before any event; with one, the cached
questions are yielded.  It contains no `Ev.request` (and no push or
flush): the method reads the cache only. -/
def fetchFromCacheEvents (cache : Option (List Question)) : List Ev :=
  match cache with
  | none => []
  | some items => items.map Ev.yieldq

/-- Spec-side definition (for comparison with the code): the running
`fetched` values that C2's formula `fetched += min(page_size,
remaining_total)` prescribes, where `remaining_total` is the response's
`total` minus what was already counted. -/
def specFetchedTrace : List Response → Nat → List Nat
  | [], _ => []
  | r :: rest, counted =>
    let inc := min r.page_size (r.total - counted)
    (counted + inc) :: specFetchedTrace rest (counted + inc)

/-- Running sums of a list, starting from `acc`: the n-th entry is
`acc` plus the sum of the first n+1 elements. -/
def cumSums (acc : Nat) : List Nat → List Nat
  | [] => []
  | x :: xs => (acc + x) :: cumSums (acc + x) xs

/-- The condition under which the `while questions:` loop of
`get_questions`, having consumed response `r`, issues one further
request: `r` must report `has_more` and carry at least one item. -/
def continuesPage (r : Response) : Bool :=
  r.has_more && !r.items.isEmpty

/-- One attribution record produced by the blame-output parser.  The
four header fields are always present; every metadata field is present
only when the corresponding line occurred in the record's group
(`author_mail` models the `author-mail` key, and so on). -/
structure BlameRecord where
  hash : String
  prev_line : String
  this_line : String
  lines : String
  author : Option String := none
  author_mail : Option String := none
  author_time : Option String := none
  author_tz : Option String := none
  committer : Option String := none
  committer_mail : Option String := none
  committer_time : Option String := none
  committer_tz : Option String := none
  summary : Option String := none
  previous : Option String := none
  filename : Option String := none
deriving DecidableEq, Repr

/-- The commit/line-range identity of a group: the (hash, prevLine,
thisLine) triple of its header. -/
def BlameRecord.triple (r : BlameRecord) : String × String × String :=
  (r.hash, r.prev_line, r.this_line)

/-- The error raised on malformed blame output. -/
structure ParseError where
  cause : String
deriving DecidableEq, Repr

/-- The space character, used to split blame output lines. -/
def spaceChar : Char := Char.ofNat 32

/-- Splits a character list at every space, like Python's
`split(" ")`: consecutive spaces produce empty fields. -/
def splitSpace : List Char → List (List Char)
  | [] => [[]]
  | c :: cs =>
    if c = spaceChar then [] :: splitSpace cs
    else
      match splitSpace cs with
      | [] => [[c]]
      | w :: ws => (c :: w) :: ws

/-- The space-separated tokens of a line. -/
def lineTokens (l : String) : List String :=
  (splitSpace l.data).map (fun w => String.mk w)

/-- The characters of a metadata line before its first space. -/
def keyChars : List Char → List Char
  | [] => []
  | c :: cs => if c = spaceChar then [] else c :: keyChars cs

/-- The characters of a metadata line after its first space. -/
def valueChars : List Char → List Char
  | [] => []
  | c :: cs => if c = spaceChar then cs else valueChars cs

/-- The key of a metadata line: everything before the first space. -/
def lineKey (l : String) : String :=
  String.mk (keyChars l.data)

/-- The value of a metadata line: everything after the first space
(like Python's `split(" ", 1)` second component). -/
def lineValue (l : String) : String :=
  String.mk (valueChars l.data)

instance {ε α : Type} [DecidableEq ε] [DecidableEq α] : DecidableEq (Except ε α) :=
  fun x y =>
    match x, y with
    | Except.ok a, Except.ok b =>
      if h : a = b then isTrue (by rw [h])
      else isFalse (by intro hc; injection hc; contradiction)
    | Except.error a, Except.error b =>
      if h : a = b then isTrue (by rw [h])
      else isFalse (by intro hc; injection hc; contradiction)
    | Except.ok _, Except.error _ => isFalse (by intro hc; injection hc)
    | Except.error _, Except.ok _ => isFalse (by intro hc; injection hc)

/-- Modelled from the spec: the metadata lines a non-abbreviated group
may carry (`author`, `author-mail`, `author-time`, `author-tz`,
`committer`, `committer-mail`, `committer-time`, `committer-tz`,
`summary`, optionally `previous {hash} {path}`).  An unknown key is
rejected. -/
def updateField (r : BlameRecord) (key value : String) : Option BlameRecord :=
  if key = "author" then some { r with author := some value }
  else if key = "author-mail" then some { r with author_mail := some value }
  else if key = "author-time" then some { r with author_time := some value }
  else if key = "author-tz" then some { r with author_tz := some value }
  else if key = "committer" then some { r with committer := some value }
  else if key = "committer-mail" then some { r with committer_mail := some value }
  else if key = "committer-time" then some { r with committer_time := some value }
  else if key = "committer-tz" then some { r with committer_tz := some value }
  else if key = "summary" then some { r with summary := some value }
  else if key = "previous" then some { r with previous := some value }
  else none

/-- The parser state: the set of (hash, prevLine, thisLine) triples
already seen in this `analyze()` call, the group being assembled (with
a flag marking it as abbreviated), and the records emitted so far in
group order. -/
structure PState where
  seen : List (String × String × String)
  current : Option (BlameRecord × Bool)
  out : List BlameRecord
deriving DecidableEq, Repr

/-- Modelled from the spec: one step of the blame-output parser on one
input line.  Outside a group the line must be a header
`{hash} {prevLine} {thisLine} {lineCount}` (anything else is a
`ParseError`); a header whose triple was already seen opens an
abbreviated group, which may only be closed by its `filename` line.
Inside a non-abbreviated group, metadata lines fill the record until
`filename {path}` closes and emits it. -/
def stepLine (st : PState) (l : String) : Except ParseError PState :=
  match st.current with
  | none =>
    match lineTokens l with
    | [h, p, t, n] =>
      let r : BlameRecord := { hash := h, prev_line := p, this_line := t, lines := n }
      if (h, p, t) ∈ st.seen then
        Except.ok { st with current := some (r, true) }
      else
        Except.ok { seen := (h, p, t) :: st.seen,
                    current := some (r, false),
                    out := st.out }
    | _ => Except.error ⟨"invalid blame header: " ++ l⟩
  | some (r, isAbbreviated) =>
    let key := lineKey l
    let value := lineValue l
    if key = "filename" then
      Except.ok { st with current := none,
                          out := st.out ++ [{ r with filename := some value }] }
    else if isAbbreviated then
      Except.error ⟨"metadata in abbreviated group: " ++ l⟩
    else
      match updateField r key value with
      | some r' => Except.ok { st with current := some (r', false) }
      | none => Except.error ⟨"unknown blame field: " ++ l⟩

/-- Runs the parser over the remaining input lines; input that ends in
the middle of a group is malformed. -/
def runLines : PState → List String → Except ParseError (List BlameRecord)
  | st, [] =>
    match st.current with
    | none => Except.ok st.out
    | some _ => Except.error ⟨"unterminated blame group"⟩
  | st, l :: ls =>
    match stepLine st l with
    | Except.ok st' => runLines st' ls
    | Except.error e => Except.error e

/-- Modelled from the spec: `BlameOutput.analyze` (the gitblame backend
is not under `src/`; its parser is modelled from the spec's blame
grammar, and checked below against the repository's own test vector
from `test_gitblame.py`).  The input is the blame output split into
lines. -/
def analyze (ls : List String) : Except ParseError (List BlameRecord) :=
  runLines ⟨[], none, []⟩ ls

/-- A record that carries exactly the abbreviated-group fields:
`hash`, `prev_line`, `this_line`, `lines` (always present) and
`filename`, with no author, committer, summary or previous data. -/
def headerOnly (r : BlameRecord) : Prop :=
  r.author = none ∧ r.author_mail = none ∧ r.author_time = none ∧
  r.author_tz = none ∧ r.committer = none ∧ r.committer_mail = none ∧
  r.committer_time = none ∧ r.committer_tz = none ∧ r.summary = none ∧
  r.previous = none ∧ r.filename.isSome = true

instance (r : BlameRecord) : Decidable (headerOnly r) := by
  unfold headerOnly; infer_instance

/-- All metadata fields of a record are absent (the state of an
abbreviated group before its `filename` line arrives). -/
def metaNone (r : BlameRecord) : Prop :=
  r.author = none ∧ r.author_mail = none ∧ r.author_time = none ∧
  r.author_tz = none ∧ r.committer = none ∧ r.committer_mail = none ∧
  r.committer_time = none ∧ r.committer_tz = none ∧ r.summary = none ∧
  r.previous = none

/-- Every record whose triple already occurred in an earlier record of
the list (or in `ts`) carries only the abbreviated-group fields. -/
def goodFrom (ts : List (String × String × String)) : List BlameRecord → Prop
  | [] => True
  | r :: rs => (r.triple ∈ ts → headerOnly r) ∧ goodFrom (r.triple :: ts) rs

instance (ts : List (String × String × String)) (rs : List BlameRecord) :
    Decidable (goodFrom ts rs) := by
  induction rs generalizing ts with
  | nil => exact isTrue trivial
  | cons r rs ih => unfold goodFrom; exact @instDecidableAnd _ _ _ (ih _)

/-- Modelled from the spec: the `GitBlame` constructor's origin rule
(the gitblame backend is not under `src/`): an origin that is `None`
or the empty string is replaced by the repository URI, any other
origin is kept. -/
def gitBlameOrigin (uri : String) (origin : Option String) : String :=
  match origin with
  | none => uri
  | some o => if o = "" then uri else o

/-- Modelled from the spec: the attributes a `GitBlame` backend is
constructed with (`uri`, `gitpath`, `origin`). -/
structure GitBlame where
  uri : String
  gitpath : String
  origin : String
deriving DecidableEq, Repr

/-- Modelled from the spec: `GitBlame.__init__`, keeping the given
`uri` and `gitpath` and applying the origin-defaulting rule. -/
def GitBlame.init (uri gitpath : String) (origin : Option String := none) : GitBlame :=
  ⟨uri, gitpath, gitBlameOrigin uri origin⟩

/-- The blame output of `TestBlameOutput.text` in
`src/tests/test_gitblame.py`, split into lines. -/
def testBlameLines : List String :=
  [ "d7d30291c9ec0ab4af99220ef52e3e88f51e2c31 29 29 1",
    "author Santiago Dueñas",
    "author-mail <sduenas@bitergia.com>",
    "author-time 1470075075",
    "author-tz +0200",
    "committer Santiago Dueñas",
    "committer-mail <sduenas@bitergia.com>",
    "committer-time 1470075075",
    "committer-tz +0200",
    "summary [perceval] Add Redmine backend",
    "previous a12760b159f813863bb4f7b6c383cad72f824160 README.md",
    "filename README.md",
    "d7d30291c9ec0ab4af99220ef52e3e88f51e2c31 174 174 6",
    "filename README.md",
    "d8e0f9c118f3026251ba0369424b7a3918a66231 27 27 1",
    "author Santiago Dueñas",
    "author-mail <sduenas@bitergia.com>",
    "author-time 1469722351",
    "author-tz +0200",
    "committer Santiago Dueñas",
    "committer-mail <sduenas@bitergia.com>",
    "committer-time 1469725990",
    "committer-tz +0200",
    "summary [perceval] Add Phabricator backend",
    "previous d163a11551f52c13f38824a2a4a2e23409e60d96 README.md",
    "filename README.md",
    "d8e0f9c118f3026251ba0369424b7a3918a66231 163 164 5",
    "filename README.md",
    "ba1e441986b32f505e1dbaa1e8e16758c073fc07 24 24 1",
    "author Alvaro del Castillo",
    "author-mail <acs@bitergia.com>",
    "author-time 1467802564",
    "author-tz +0200",
    "committer Alvaro del Castillo",
    "committer-mail <acs@bitergia.com>",
    "committer-time 1468965921",
    "committer-tz +0200",
    "summary [perceval] Add Kitsune backend",
    "previous 6c797b8499a70f3af520bcd0863127dc0f29fb94 README.md",
    "filename README.md",
    "ba1e441986b32f505e1dbaa1e8e16758c073fc07 147 149 5",
    "filename README.md" ]

/-- `TestBlameOutput.analyzed` in `src/tests/test_gitblame.py`: the
six records the parser is expected to produce (groups 2, 4 and 6 are
continuation groups carrying only header and filename). -/
def testBlameAnalyzed : List BlameRecord :=
  [ { hash := "d7d30291c9ec0ab4af99220ef52e3e88f51e2c31",
      prev_line := "29", this_line := "29", lines := "1",
      author := some "Santiago Dueñas",
      author_mail := some "<sduenas@bitergia.com>",
      author_time := some "1470075075",
      author_tz := some "+0200",
      committer := some "Santiago Dueñas",
      committer_mail := some "<sduenas@bitergia.com>",
      committer_time := some "1470075075",
      committer_tz := some "+0200",
      summary := some "[perceval] Add Redmine backend",
      previous := some "a12760b159f813863bb4f7b6c383cad72f824160 README.md",
      filename := some "README.md" },
    { hash := "d7d30291c9ec0ab4af99220ef52e3e88f51e2c31",
      prev_line := "174", this_line := "174", lines := "6",
      filename := some "README.md" },
    { hash := "d8e0f9c118f3026251ba0369424b7a3918a66231",
      prev_line := "27", this_line := "27", lines := "1",
      author := some "Santiago Dueñas",
      author_mail := some "<sduenas@bitergia.com>",
      author_time := some "1469722351",
      author_tz := some "+0200",
      committer := some "Santiago Dueñas",
      committer_mail := some "<sduenas@bitergia.com>",
      committer_time := some "1469725990",
      committer_tz := some "+0200",
      summary := some "[perceval] Add Phabricator backend",
      previous := some "d163a11551f52c13f38824a2a4a2e23409e60d96 README.md",
      filename := some "README.md" },
    { hash := "d8e0f9c118f3026251ba0369424b7a3918a66231",
      prev_line := "163", this_line := "164", lines := "5",
      filename := some "README.md" },
    { hash := "ba1e441986b32f505e1dbaa1e8e16758c073fc07",
      prev_line := "24", this_line := "24", lines := "1",
      author := some "Alvaro del Castillo",
      author_mail := some "<acs@bitergia.com>",
      author_time := some "1467802564",
      author_tz := some "+0200",
      committer := some "Alvaro del Castillo",
      committer_mail := some "<acs@bitergia.com>",
      committer_time := some "1468965921",
      committer_tz := some "+0200",
      summary := some "[perceval] Add Kitsune backend",
      previous := some "6c797b8499a70f3af520bcd0863127dc0f29fb94 README.md",
      filename := some "README.md" },
    { hash := "ba1e441986b32f505e1dbaa1e8e16758c073fc07",
      prev_line := "147", this_line := "149", lines := "5",
      filename := some "README.md" } ]

/-- A sample client configuration, used in witnesses and
counterexamples. -/
def client0 : Client :=
  { site := "stackoverflow", tagged := "python",
    token := "abcdefghi", max_questions := 100 }

/-- A successful one-page response with one question and no further
pages. -/
def respLastPage : Response :=
  { status := 200, items := ["question-1"], page_size := 100, total := 1,
    has_more := false, quota_remaining := 9991, quota_max := 10000 }

/-- A successful response announcing a further page. -/
def respMorePage : Response :=
  { status := 200, items := ["question-1"], page_size := 100, total := 150,
    has_more := true, quota_remaining := 9991, quota_max := 10000 }

/-- A response whose `total` (150) exceeds its `page_size` (100), with
a further page announced; the second page of this scenario makes the
code's `fetched` counter diverge from the remaining-total formula. -/
def respSecondOf150 : Response :=
  { status := 200, items := [], page_size := 100, total := 150,
    has_more := true, quota_remaining := 9990, quota_max := 10000 }

/-- A non-2xx response that `requests.Response.raise_for_status` does
not raise on: HTTP 304 Not Modified. -/
def resp304 : Response :=
  { status := 304, items := ["question-1"], page_size := 100, total := 1,
    has_more := false, quota_remaining := 9991, quota_max := 10000 }

/-- An HTTP 400 error response. -/
def respBadRequest : Response :=
  { status := 400, items := [], page_size := 0, total := 0,
    has_more := false, quota_remaining := 9991, quota_max := 10000 }

/-- A successful response with an empty first page. -/
def respEmptyPage : Response :=
  { status := 200, items := [], page_size := 100, total := 0,
    has_more := false, quota_remaining := 9991, quota_max := 10000 }

/-- A successful second page announcing a further page. -/
def respMorePage2 : Response :=
  { status := 200, items := ["question-2"], page_size := 100, total := 150,
    has_more := true, quota_remaining := 9990, quota_max := 10000 }

/-- A successful final third page. -/
def respLastPage3 : Response :=
  { status := 200, items := ["question-3"], page_size := 100, total := 150,
    has_more := false, quota_remaining := 9989, quota_max := 10000 }

/-! ## Helper lemmas about the paged client -/

theorem questionsLoop_requests_mem (client : Client) (fd : Option Datetime) :
    ∀ (rest : List Response) (cur : Response) (page fetched : Nat) (p : Payload),
      p ∈ (questionsLoop client fd rest cur page fetched).requests →
      ∃ k, p = buildPayload client k fd := by
  intro rest
  induction rest with
  | nil =>
    intro cur page fetched p hp
    unfold questionsLoop at hp
    by_cases h1 : cur.items.isEmpty
    · simp [h1] at hp
    · by_cases h2 : cur.has_more <;> simp [h1, h2] at hp
      exact ⟨page + 1, hp⟩
  | cons r rest' ih =>
    intro cur page fetched p hp
    unfold questionsLoop at hp
    by_cases h1 : cur.items.isEmpty
    · simp [h1] at hp
    · by_cases h2 : cur.has_more <;> simp [h1, h2] at hp
      by_cases h3 : raiseForStatus r <;> simp [h3] at hp
      · exact ⟨page + 1, hp⟩
      · rcases hp with hp | hp
        · exact ⟨page + 1, hp⟩
        · exact ih r (page + 1) (fetched + fetchedIncr r) p hp

theorem get_questions_requests_mem (client : Client) (fd : Option Datetime)
    (resps : List Response) (p : Payload)
    (hp : p ∈ (get_questions client fd resps).requests) :
    ∃ k, p = buildPayload client k fd := by
  unfold get_questions at hp
  cases resps with
  | nil => simp at hp; exact ⟨1, hp⟩
  | cons r rest =>
    by_cases h1 : raiseForStatus r <;> simp [h1] at hp
    · exact ⟨1, hp⟩
    · rcases hp with hp | hp
      · exact ⟨1, hp⟩
      · exact questionsLoop_requests_mem client fd rest r 1 (fetchedIncr r) p hp

theorem questionsLoop_chain (client : Client) (fd : Option Datetime) :
    ∀ (rest : List Response) (cur : Response) (page fetched : Nat),
      cur.items ≠ [] →
      (∀ r ∈ rest, raiseForStatus r = false ∧ r.items ≠ []) →
      (∀ r ∈ (cur :: rest).dropLast, r.has_more = true) →
      (∀ r, (cur :: rest).getLast? = some r → r.has_more = false) →
      (questionsLoop client fd rest cur page fetched).yields
          = (cur :: rest).map (fun r => r.items) ∧
      (questionsLoop client fd rest cur page fetched).requests.map
          (fun p => p.page) = List.range' (page + 1) rest.length ∧
      (questionsLoop client fd rest cur page fetched).error = none := by
  intro rest
  induction rest with
  | nil =>
    intro cur page fetched hItems _ _ hLast
    have hm : cur.has_more = false := hLast cur rfl
    have hne : cur.items.isEmpty = false := by
      simpa [List.isEmpty_iff] using hItems
    unfold questionsLoop
    simp [hne, hm]
  | cons r rest' ih =>
    intro cur page fetched hItems hOk hMore hLast
    have hm : cur.has_more = true := by
      apply hMore
      simp [List.dropLast]
    have hne : cur.items.isEmpty = false := by
      simpa [List.isEmpty_iff] using hItems
    have hrOk : raiseForStatus r = false ∧ r.items ≠ [] := hOk r (by simp)
    have hsub := ih r (page + 1) (fetched + fetchedIncr r) hrOk.2
      (fun x hx => hOk x (by simp [hx]))
      (fun x hx => hMore x (by simp [List.dropLast] at hx ⊢; tauto))
      (fun x hx => hLast x (by rwa [List.getLast?_cons_cons]))
    unfold questionsLoop
    simp only [hne, hm, hrOk.1, Bool.false_eq_true, if_false, if_true,
      Bool.not_eq_true]
    refine ⟨?_, ?_, ?_⟩
    · simp [hsub.1]
    · simp [hsub.2.1, buildPayload, List.range'_succ]
    · simp [hsub.2.2]

theorem questionsLoop_observability (client : Client) (fd : Option Datetime) :
    ∀ (rest : List Response) (cur : Response) (page fetched : Nat),
      (questionsLoop client fd rest cur page fetched).fetchedTrace
        = cumSums fetched
            ((questionsLoop client fd rest cur page fetched).received.map fetchedIncr) ∧
      (questionsLoop client fd rest cur page fetched).requests.length
        = (if continuesPage cur then 1 else 0)
          + ((questionsLoop client fd rest cur page fetched).received.filter
              continuesPage).length := by
  intro rest
  induction rest with
  | nil =>
    intro cur page fetched
    unfold questionsLoop
    by_cases h1 : cur.items.isEmpty
    · simp [h1, cumSums, continuesPage]
    · by_cases h2 : cur.has_more <;>
        simp [h1, h2, cumSums, continuesPage]
  | cons r rest' ih =>
    intro cur page fetched
    unfold questionsLoop
    by_cases h1 : cur.items.isEmpty
    · simp [h1, cumSums, continuesPage]
    · by_cases h2 : cur.has_more
      · by_cases h3 : raiseForStatus r
        · simp [h1, h2, h3, cumSums, continuesPage]
        · have hsub := ih r (page + 1) (fetched + fetchedIncr r)
          have hne' : cur.items.isEmpty = false := Bool.eq_false_iff.mpr h1
          have hc : continuesPage cur = true := by
            simp [continuesPage, h2, hne']
          simp only [h1, h2, h3, Bool.false_eq_true, if_false, if_true,
            Bool.not_eq_true]
          constructor
          · simp [cumSums, hsub.1]
          · simp only [List.length_cons, List.filter_cons, hsub.2, hc]
            by_cases h4 : continuesPage r <;> simp [h4] <;> omega
      · simp [h1, h2, cumSums, continuesPage]

theorem questionsLoop_fail (client : Client) (fd : Option Datetime)
    (bad : Response) (rest : List Response) (hbad : raiseForStatus bad = true) :
    ∀ (good : List Response) (cur : Response) (page fetched : Nat),
      cur.items ≠ [] → cur.has_more = true →
      (∀ r ∈ good, raiseForStatus r = false ∧ r.items ≠ [] ∧ r.has_more = true) →
      (questionsLoop client fd (good ++ bad :: rest) cur page fetched).error
          = some (RunError.http bad) ∧
      (questionsLoop client fd (good ++ bad :: rest) cur page fetched).requests.map
          (fun p => p.page) = List.range' (page + 1) (good.length + 1) ∧
      (questionsLoop client fd (good ++ bad :: rest) cur page fetched).yields
          = (cur :: good).map (fun r => r.items) := by
  intro good
  induction good with
  | nil =>
    intro cur page fetched hItems hMore _
    have hne : cur.items.isEmpty = false := by
      simpa [List.isEmpty_iff] using hItems
    unfold questionsLoop
    simp [hne, hMore, hbad, buildPayload]
  | cons g good' ih =>
    intro cur page fetched hItems hMore hGood
    have hne : cur.items.isEmpty = false := by
      simpa [List.isEmpty_iff] using hItems
    have hg := hGood g (by simp)
    have hsub := ih g (page + 1) (fetched + fetchedIncr g) hg.2.1 hg.2.2
      (fun x hx => hGood x (by simp [hx]))
    unfold questionsLoop
    simp only [List.cons_append, hne, hMore, hg.1, Bool.false_eq_true, if_false,
      if_true, Bool.not_eq_true]
    refine ⟨?_, ?_, ?_⟩
    · simp [hsub.1]
    · simp [hsub.2.1, buildPayload, List.range'_succ]
    · simp [hsub.2.2]

/-! ## Helper lemmas about the fetch cache-operation trace -/

/-- The event at position `i` of a trace (0-based). -/
def evAt : List Ev → Nat → Option Ev
  | [], _ => none
  | e :: _, 0 => some e
  | _ :: l, n + 1 => evAt l n

/-- In this trace, a yield never occurs in the first two positions, and
every yield of a question `q` is immediately preceded by a flush which
is immediately preceded by a push of that same `q` — so any prefix of
the trace that ends at a yield contains the matching push and a
subsequent flush. -/
def pushFlushBeforeYield (l : List Ev) : Prop :=
  (∀ q, evAt l 0 ≠ some (Ev.yieldq q)) ∧
  (∀ q, evAt l 1 ≠ some (Ev.yieldq q)) ∧
  (∀ i q, evAt l (i + 2) = some (Ev.yieldq q) →
    evAt l (i + 1) = some Ev.flush ∧ evAt l i = some (Ev.push q))

theorem pushFlushBeforeYield_nil : pushFlushBeforeYield [] := by
  refine ⟨fun q => by simp [evAt], fun q => by simp [evAt], ?_⟩
  intro i q hi
  simp [evAt] at hi

theorem pushFlushBeforeYield_block (q : Question) (l : List Ev)
    (h : pushFlushBeforeYield l) :
    pushFlushBeforeYield (Ev.push q :: Ev.flush :: Ev.yieldq q :: l) := by
  refine ⟨fun q' => by simp [evAt], fun q' => by simp [evAt], ?_⟩
  intro i q' hi
  rcases i with _ | i
  · have hq : Ev.yieldq q = Ev.yieldq q' := by
      have h0 : some (Ev.yieldq q) = some (Ev.yieldq q') := hi
      injection h0
    have hq' : q' = q := by injection hq with h1; exact h1.symm
    subst hq'
    exact ⟨rfl, rfl⟩
  rcases i with _ | i
  · have h1 : evAt l 0 = some (Ev.yieldq q') := hi
    exact absurd h1 (h.1 q')
  rcases i with _ | i
  · have h2 : evAt l 1 = some (Ev.yieldq q') := hi
    exact absurd h2 (h.2.1 q')
  · have h3 : evAt l (i + 2) = some (Ev.yieldq q') := hi
    obtain ⟨hf, hp⟩ := h.2.2 i q' h3
    exact ⟨hf, hp⟩

theorem pushFlushBeforeYield_page_append (p : List Question) :
    ∀ l : List Ev, pushFlushBeforeYield l →
      pushFlushBeforeYield (pageEvents p ++ l) := by
  induction p with
  | nil => intro l hl; simpa [pageEvents] using hl
  | cons q qs ih =>
    intro l hl
    have : pageEvents (q :: qs) ++ l
        = Ev.push q :: Ev.flush :: Ev.yieldq q :: (pageEvents qs ++ l) := by
      simp [pageEvents]
    rw [this]
    exact pushFlushBeforeYield_block q _ (ih l hl)

theorem pushFlushBeforeYield_pagesEvents (ps : List (List Question)) :
    pushFlushBeforeYield (pagesEvents ps) := by
  induction ps with
  | nil => exact pushFlushBeforeYield_nil
  | cons p ps ih =>
    have : pagesEvents (p :: ps) = pageEvents p ++ pagesEvents ps := rfl
    rw [this]
    exact pushFlushBeforeYield_page_append p _ ih

theorem purge_not_mem_pageEvents (p : List Question) :
    Ev.purge ∉ pageEvents p := by
  induction p with
  | nil => simp [pageEvents]
  | cons q qs ih => simp [pageEvents, ih]

theorem purge_not_mem_pagesEvents (ps : List (List Question)) :
    Ev.purge ∉ pagesEvents ps := by
  induction ps with
  | nil => simp [pagesEvents]
  | cons p ps ih => simp [pagesEvents, purge_not_mem_pageEvents p, ih]

/-! ## Helper lemmas about the blame-output parser -/

theorem updateField_triple (r : BlameRecord) (k v : String) (r' : BlameRecord)
    (h : updateField r k v = some r') : r'.triple = r.triple := by
  unfold updateField at h
  repeat' split at h
  all_goals
    first
      | (injection h with h'; subst h'; rfl)
      | exact absurd h (by simp)

theorem goodFrom_append (r : BlameRecord) :
    ∀ (rs : List BlameRecord) (ts : List (String × String × String)),
      goodFrom ts rs →
      (r.triple ∈ ts ∨ r.triple ∈ rs.map BlameRecord.triple → headerOnly r) →
      goodFrom ts (rs ++ [r]) := by
  intro rs
  induction rs with
  | nil =>
    intro ts _ h2
    exact ⟨fun hm => h2 (Or.inl hm), trivial⟩
  | cons x rs' ih =>
    intro ts h1 h2
    refine ⟨h1.1, ih (x.triple :: ts) h1.2 ?_⟩
    intro hm
    apply h2
    rcases hm with hm | hm
    · rcases List.mem_cons.mp hm with hm | hm
      · exact Or.inr (by simp [hm])
      · exact Or.inl hm
    · exact Or.inr (by simp [hm])

/-- The invariant the parser state maintains: the emitted records
satisfy the continuation-group property, every emitted or in-progress
group's triple is registered in `seen`, an in-progress abbreviated
group has no metadata, and an in-progress first-occurrence group's
triple has not been emitted before. -/
def ParserInv (st : PState) : Prop :=
  goodFrom [] st.out ∧
  (∀ r ∈ st.out, r.triple ∈ st.seen) ∧
  (∀ r b, st.current = some (r, b) → r.triple ∈ st.seen) ∧
  (∀ r, st.current = some (r, true) → metaNone r) ∧
  (∀ r, st.current = some (r, false) → r.triple ∉ st.out.map BlameRecord.triple)

theorem stepLine_inv (st : PState) (l : String) (st' : PState)
    (h : stepLine st l = Except.ok st') (hInv : ParserInv st) : ParserInv st' := by
  obtain ⟨seen, cur, out⟩ := st
  obtain ⟨inv1, inv2, inv3, inv4, inv5⟩ := hInv
  rcases cur with _ | ⟨r, b⟩
  · rcases htok : lineTokens l with _ | ⟨a1, _ | ⟨a2, _ | ⟨a3, _ | ⟨a4, _ | ⟨a5, restTok⟩⟩⟩⟩⟩ <;>
      simp only [stepLine, htok] at h <;>
      first
        | exact Except.noConfusion h
        | skip
    by_cases hseen : (a1, a2, a3) ∈ seen
    · rw [if_pos hseen] at h
      injection h with h'
      subst h'
      refine ⟨inv1, inv2, ?_, ?_, ?_⟩
      · intro x c hx
        injection hx with hx
        injection hx with hx1 hx2
        subst hx1
        exact hseen
      · intro x hx
        injection hx with hx
        injection hx with hx1 _
        subst hx1
        exact ⟨rfl, rfl, rfl, rfl, rfl, rfl, rfl, rfl, rfl, rfl⟩
      · intro x hx
        injection hx with hx
        injection hx with _ hx2
        exact absurd hx2.symm (by simp)
    · rw [if_neg hseen] at h
      injection h with h'
      subst h'
      refine ⟨inv1, ?_, ?_, ?_, ?_⟩
      · intro x hx
        exact List.mem_cons_of_mem _ (inv2 x hx)
      · intro x c hx
        injection hx with hx
        injection hx with hx1 _
        subst hx1
        exact List.mem_cons_self _ _
      · intro x hx
        injection hx with hx
        injection hx with _ hx2
        exact absurd hx2.symm (by simp)
      · intro x hx
        injection hx with hx
        injection hx with hx1 _
        subst hx1
        intro hmem
        apply hseen
        rcases List.mem_map.mp hmem with ⟨y, hy, hty⟩
        have hty' : y.triple = (a1, a2, a3) := hty
        exact hty' ▸ inv2 y hy
  · simp only [stepLine] at h
    by_cases hkey : lineKey l = "filename"
    · rw [if_pos hkey] at h
      injection h with h'
      subst h'
      have htr : ({ r with filename := some (lineValue l) } : BlameRecord).triple
          = r.triple := rfl
      refine ⟨?_, ?_, ?_, ?_, ?_⟩
      · apply goodFrom_append _ _ _ inv1
        intro hm
        rcases hm with hm | hm
        · exact absurd hm (by simp)
        · cases b with
          | true =>
            obtain ⟨m1, m2, m3, m4, m5, m6, m7, m8, m9, m10⟩ := inv4 r rfl
            exact ⟨m1, m2, m3, m4, m5, m6, m7, m8, m9, m10, rfl⟩
          | false =>
            rw [htr] at hm
            exact absurd hm (inv5 r rfl)
      · intro x hx
        rcases List.mem_append.mp hx with hx | hx
        · exact inv2 x hx
        · have hx' : x = { r with filename := some (lineValue l) } := by
            simpa using hx
          subst hx'
          rw [htr]
          exact inv3 r b rfl
      · intro x c hx
        exact absurd hx (by simp)
      · intro x hx
        exact absurd hx (by simp)
      · intro x hx
        exact absurd hx (by simp)
    · rw [if_neg hkey] at h
      cases b with
      | true => exact absurd h (by simp)
      | false =>
        simp only [Bool.false_eq_true, if_false] at h
        rcases hupd : updateField r (lineKey l) (lineValue l) with _ | r' <;>
          rw [hupd] at h
        · exact absurd h (by simp)
        · injection h with h'
          subst h'
          have htr := updateField_triple r (lineKey l) (lineValue l) r' hupd
          refine ⟨inv1, inv2, ?_, ?_, ?_⟩
          · intro x c hx
            injection hx with hx
            injection hx with hx1 _
            subst hx1
            rw [htr]
            exact inv3 r false rfl
          · intro x hx
            injection hx with hx
            injection hx with _ hx2
            exact absurd hx2.symm (by simp)
          · intro x hx
            injection hx with hx
            injection hx with hx1 _
            subst hx1
            rw [htr]
            exact inv5 r rfl

theorem runLines_good :
    ∀ (ls : List String) (st : PState) (rs : List BlameRecord),
      ParserInv st → runLines st ls = Except.ok rs → goodFrom [] rs := by
  intro ls
  induction ls with
  | nil =>
    intro st rs hInv h
    unfold runLines at h
    rcases hcur : st.current with _ | _ <;> rw [hcur] at h
    · injection h with h'
      subst h'
      exact hInv.1
    · exact absurd h (by simp)
  | cons l ls' ih =>
    intro st rs hInv h
    unfold runLines at h
    rcases hstep : stepLine st l with e | st' <;> rw [hstep] at h
    · exact absurd h (by simp)
    · exact ih st' rs (stepLine_inv st l st' hstep hInv) h

theorem evAt_mem : ∀ (l : List Ev) (i : Nat) (e : Ev), evAt l i = some e → e ∈ l := by
  intro l
  induction l with
  | nil => intro i e h; simp [evAt] at h
  | cons a l ih =>
    intro i e h
    cases i with
    | zero =>
      have h' : some a = some e := h
      injection h' with h''
      subst h''
      exact List.mem_cons_self _ _
    | succ i => exact List.mem_cons_of_mem _ (ih i e h)

/-! ## Claims -/

/-- C1, counterexample: a `fetch` whose `from_date` is unset (falsy,
modelled `none`) does issue a request whose payload carries a `min`
parameter, contradicting the claim that no request of such a fetch
carries one. -/
theorem stackexchange_unset_since_cex :
    ¬ (∀ p ∈ (fetchRun client0 none [respLastPage]).requests, p.min = none) := by
  decide

/-- C1 (amended): a call to `fetch` with an unset (falsy) `since` bound
replaces it by the beginning-of-time default `DEFAULT_DATETIME`
(never by "now"), so every REST request issued during that fetch
carries a `min` parameter equal to the epoch seconds of the beginning
of time (0) — rather than omitting `min`. -/
theorem stackexchange_unset_since_sends_min (client : Client)
    (resps : List Response) (p : Payload)
    (hp : p ∈ (fetchRun client none resps).requests) :
    p.min = some DEFAULT_DATETIME.epoch ∧
    normalizeFromDate none = DEFAULT_DATETIME ∧
    DEFAULT_DATETIME.epoch = 0 := by
  obtain ⟨k, hk⟩ :=
    get_questions_requests_mem client (some (normalizeFromDate none)) resps p hp
  subst hk
  exact ⟨rfl, rfl, rfl⟩

theorem stackexchange_unset_since_witness :
    (buildPayload client0 1 (some DEFAULT_DATETIME)).min
        = some DEFAULT_DATETIME.epoch ∧
    normalizeFromDate none = DEFAULT_DATETIME ∧
    DEFAULT_DATETIME.epoch = 0 :=
  stackexchange_unset_since_sends_min client0 [respLastPage]
    (buildPayload client0 1 (some DEFAULT_DATETIME)) (by decide)

/-- C2, counterexample: on a 150-question total with page size 100, the
code's `fetched` counter reads [100, 200] after the two responses while
the claimed `min(page_size, remaining_total)` formula prescribes
[100, 150]; moreover the second response has `has_more = true` yet no
third request is issued (its `items` are empty), so the next-page
decision does not depend on `has_more` alone. -/
theorem stackexchange_fetched_formula_cex :
    (get_questions client0 none [respMorePage, respSecondOf150]).fetchedTrace
        ≠ specFetchedTrace [respMorePage, respSecondOf150] 0 ∧
    respSecondOf150.has_more = true ∧
    (get_questions client0 none [respMorePage, respSecondOf150]).requests.length
        = 2 := by
  decide

/-- C2 (amended): the running `fetched` count after the k-th consumed
response equals the sum over the first k responses of
`min(page_size, total)` — each response's full `total`, not the total
not yet counted — and `fetched` never affects control flow: exactly one
request is issued beyond the initial one for each consumed response
whose `has_more` is true and whose `items` are non-empty. -/
theorem stackexchange_fetched_observability (client : Client)
    (fd : Option Datetime) (resps : List Response) :
    (get_questions client fd resps).fetchedTrace
        = cumSums 0 ((get_questions client fd resps).received.map fetchedIncr) ∧
    (get_questions client fd resps).requests.length
        = 1 + ((get_questions client fd resps).received.filter
            continuesPage).length := by
  unfold get_questions
  cases resps with
  | nil => simp [cumSums]
  | cons r rest =>
    by_cases h1 : raiseForStatus r
    · simp [h1, cumSums]
    · have hsub := questionsLoop_observability client fd rest r 1 (fetchedIncr r)
      simp only [h1, Bool.false_eq_true, if_false]
      constructor
      · simp [cumSums, hsub.1]
      · simp only [List.length_cons, List.filter_cons, hsub.2]
        by_cases h4 : continuesPage r <;> simp [h4] <;> omega

/-- C3, counterexample: HTTP 304 is not a 2xx status, yet
`raise_for_status` does not raise on it — the run completes without
error and yields the page, contradicting the claim that every non-2xx
response fails the retrieval. -/
theorem stackexchange_non2xx_cex :
    (get_questions client0 none [resp304]).error = none ∧
    ¬ (200 ≤ resp304.status ∧ resp304.status < 300) ∧
    (get_questions client0 none [resp304]).yields = [["question-1"]] := by
  decide

/-- C3 (amended): if a response's HTTP status is a 4xx or 5xx error
(the statuses `requests.Response.raise_for_status` raises on), the
retrieval fails immediately with the `HTTPError` carrying that
response — its structured error body included — after yielding the
pages that preceded it; no further request is issued for that run and
no page is ever requested twice (no retry). -/
theorem stackexchange_http_error_aborts (client : Client)
    (fd : Option Datetime) (good : List Response) (bad : Response)
    (rest : List Response)
    (hgood : ∀ r ∈ good, raiseForStatus r = false ∧ r.items ≠ [] ∧
      r.has_more = true)
    (hbad : raiseForStatus bad = true) :
    (get_questions client fd (good ++ bad :: rest)).error
        = some (RunError.http bad) ∧
    (get_questions client fd (good ++ bad :: rest)).requests.map
        (fun p => p.page) = List.range' 1 (good.length + 1) ∧
    (get_questions client fd (good ++ bad :: rest)).yields
        = good.map (fun r => r.items) := by
  cases good with
  | nil =>
    unfold get_questions
    simp [hbad, buildPayload]
  | cons g good' =>
    have hg := hgood g (by simp)
    have hsub := questionsLoop_fail client fd bad rest hbad good' g 1
      (fetchedIncr g) hg.2.1 hg.2.2 (fun x hx => hgood x (by simp [hx]))
    unfold get_questions
    simp only [List.cons_append, hg.1, Bool.false_eq_true, if_false]
    refine ⟨?_, ?_, ?_⟩
    · simp [hsub.1]
    · simp [hsub.2.1, buildPayload, List.range'_succ]
    · simp [hsub.2.2]

theorem stackexchange_http_error_aborts_witness :
    (get_questions client0 none [respMorePage, respBadRequest]).error
        = some (RunError.http respBadRequest) ∧
    (get_questions client0 none [respMorePage, respBadRequest]).requests.map
        (fun p => p.page) = List.range' 1 2 ∧
    (get_questions client0 none [respMorePage, respBadRequest]).yields
        = [respMorePage].map (fun r => r.items) :=
  stackexchange_http_error_aborts client0 none [respMorePage] respBadRequest []
    (by decide) (by decide)

/-- C4: every `fetch` purges the cache staging queue exactly once, at
the very start, before producing any record; and every yielded question
is immediately preceded in the operation trace by a flush attempt,
itself immediately preceded by the push of that same question — so a
consumer abandoning iteration at any point has seen push and flush
happen for every record already yielded to it. -/
theorem stackexchange_fetch_cache_discipline (client : Client)
    (fd : Option Datetime) (resps : List Response) :
    evAt (fetchEvents client fd resps) 0 = some Ev.purge ∧
    (∀ i, evAt (fetchEvents client fd resps) (i + 1) ≠ some Ev.purge) ∧
    (∀ q, evAt (fetchEvents client fd resps) 1 ≠ some (Ev.yieldq q)) ∧
    (∀ q, evAt (fetchEvents client fd resps) 2 ≠ some (Ev.yieldq q)) ∧
    (∀ i q, evAt (fetchEvents client fd resps) (i + 3) = some (Ev.yieldq q) →
      evAt (fetchEvents client fd resps) (i + 2) = some Ev.flush ∧
      evAt (fetchEvents client fd resps) (i + 1) = some (Ev.push q)) := by
  have hsafe := pushFlushBeforeYield_pagesEvents (fetchRun client fd resps).yields
  have hpurge := purge_not_mem_pagesEvents (fetchRun client fd resps).yields
  refine ⟨rfl, ?_, ?_, ?_, ?_⟩
  · intro i hi
    have hi' : evAt (pagesEvents (fetchRun client fd resps).yields) i
        = some Ev.purge := hi
    exact hpurge (evAt_mem _ i Ev.purge hi')
  · intro q hq
    have hq' : evAt (pagesEvents (fetchRun client fd resps).yields) 0
        = some (Ev.yieldq q) := hq
    exact hsafe.1 q hq'
  · intro q hq
    have hq' : evAt (pagesEvents (fetchRun client fd resps).yields) 1
        = some (Ev.yieldq q) := hq
    exact hsafe.2.1 q hq'
  · intro i q hq
    have hq' : evAt (pagesEvents (fetchRun client fd resps).yields) (i + 2)
        = some (Ev.yieldq q) := hq
    obtain ⟨hf, hp⟩ := hsafe.2.2 i q hq'
    exact ⟨hf, hp⟩

theorem stackexchange_fetch_cache_discipline_witness :
    evAt (fetchEvents client0 none [respLastPage]) 2 = some Ev.flush ∧
    evAt (fetchEvents client0 none [respLastPage]) 1
        = some (Ev.push "question-1") :=
  (stackexchange_fetch_cache_discipline client0 none [respLastPage]).2.2.2.2
    0 "question-1" (by decide)

/-- C5: for a response sequence whose pages all succeed with non-empty
items, pages 1..n-1 reporting `has_more = true` and page n reporting
`has_more = false`, `fetch` yields exactly the pages' item lists in
page order (hence, flattened, the concatenation of all items), issues
exactly n requests, numbered 1, 2, ..., n in that order, and ends
without error — a new page having been requested exactly after the
responses whose `has_more` was true. -/
theorem stackexchange_paged_concatenation (client : Client)
    (fd : Option Datetime) (pages : List Response)
    (hne : pages ≠ [])
    (hok : ∀ r ∈ pages, raiseForStatus r = false ∧ r.items ≠ [])
    (hmore : ∀ r ∈ pages.dropLast, r.has_more = true)
    (hlast : ∀ r, pages.getLast? = some r → r.has_more = false) :
    (fetchRun client fd pages).yields = pages.map (fun r => r.items) ∧
    (fetchRun client fd pages).yields.flatten
        = (pages.map (fun r => r.items)).flatten ∧
    (fetchRun client fd pages).requests.map (fun p => p.page)
        = List.range' 1 pages.length ∧
    (fetchRun client fd pages).requests.length = pages.length ∧
    (fetchRun client fd pages).error = none := by
  cases pages with
  | nil => exact absurd rfl hne
  | cons r rest =>
    have hr := hok r (by simp)
    have hch := questionsLoop_chain client (some (normalizeFromDate fd)) rest r
      1 (fetchedIncr r) hr.2 (fun x hx => hok x (by simp [hx])) hmore hlast
    have hlen := congrArg List.length hch.2.1
    simp only [List.length_map, List.length_range'] at hlen
    unfold fetchRun get_questions
    simp only [hr.1, Bool.false_eq_true, if_false]
    refine ⟨?_, ?_, ?_, ?_, ?_⟩
    · simp [hch.1]
    · simp [hch.1]
    · simp [hch.2.1, buildPayload, List.range'_succ]
    · simp [hlen]
    · simp [hch.2.2]

theorem stackexchange_paged_concatenation_witness :
    (fetchRun client0 none [respMorePage, respMorePage2, respLastPage3]).yields
        = [respMorePage, respMorePage2, respLastPage3].map (fun r => r.items) ∧
    (fetchRun client0 none
        [respMorePage, respMorePage2, respLastPage3]).yields.flatten
        = ([respMorePage, respMorePage2, respLastPage3].map
            (fun r => r.items)).flatten ∧
    (fetchRun client0 none
        [respMorePage, respMorePage2, respLastPage3]).requests.map
        (fun p => p.page) = List.range' 1 3 ∧
    (fetchRun client0 none
        [respMorePage, respMorePage2, respLastPage3]).requests.length = 3 ∧
    (fetchRun client0 none
        [respMorePage, respMorePage2, respLastPage3]).error = none :=
  stackexchange_paged_concatenation client0 none
    [respMorePage, respMorePage2, respLastPage3]
    (by decide) (by decide) (by decide)
    (fun r hr => by
      have h3 : some respLastPage3 = some r := hr
      injection h3 with h3'
      rw [← h3']
      rfl)

/-- C6: a successful first response with zero items terminates the
retrieval immediately — nothing is yielded, exactly one request is
issued however many further responses the server could have produced,
and no error is raised; and a `total` of 0 is reported by the log line
"No questions were found." rather than treated as an error. -/
theorem stackexchange_empty_first_page (client : Client)
    (fd : Option Datetime) (r : Response) (rest : List Response)
    (hok : raiseForStatus r = false) (hempty : r.items = []) :
    (get_questions client fd (r :: rest)).yields = [] ∧
    (get_questions client fd (r :: rest)).requests.length = 1 ∧
    (get_questions client fd (r :: rest)).error = none ∧
    (∀ qr qm ps : Nat, logStatus qr qm ps 0
        = ["Rate limit: " ++ toString qr ++ "/" ++ toString qm,
           "No questions were found."]) := by
  have hne : r.items.isEmpty = true := by simp [hempty]
  have hloop : questionsLoop client fd rest r 1 (fetchedIncr r)
      = ⟨[], [], [], [], [], none⟩ := by
    unfold questionsLoop
    simp [hne]
  unfold get_questions
  simp only [hok, Bool.false_eq_true, if_false]
  refine ⟨by simp [hloop], by simp [hloop], by simp [hloop], ?_⟩
  intro qr qm ps
  simp [logStatus]

theorem stackexchange_empty_first_page_witness :
    (get_questions client0 none [respEmptyPage]).yields = [] ∧
    (get_questions client0 none [respEmptyPage]).requests.length = 1 ∧
    (get_questions client0 none [respEmptyPage]).error = none :=
  ⟨(stackexchange_empty_first_page client0 none respEmptyPage []
      (by decide) (by decide)).1,
   (stackexchange_empty_first_page client0 none respEmptyPage []
      (by decide) (by decide)).2.1,
   (stackexchange_empty_first_page client0 none respEmptyPage []
      (by decide) (by decide)).2.2.1⟩

/-- C7: `fetch_from_cache` on a backend constructed without a cache
raises `CacheError` before yielding anything (its operation trace is
empty); with a cache it yields exactly the cached questions in
retrieval order; and its trace never contains an HTTP request or a
cache push — it only reads the cache. -/
theorem stackexchange_fetch_from_cache_contract
    (cache : Option (List Question)) :
    (cache = none →
      fetch_from_cache cache
          = Except.error ⟨"cache instance was not provided"⟩ ∧
      fetchFromCacheEvents cache = []) ∧
    (∀ items, cache = some items →
      fetch_from_cache cache = Except.ok items ∧
      fetchFromCacheEvents cache = items.map Ev.yieldq) ∧
    (∀ p, Ev.request p ∉ fetchFromCacheEvents cache) ∧
    (∀ q, Ev.push q ∉ fetchFromCacheEvents cache) := by
  cases cache with
  | none =>
    refine ⟨fun _ => ⟨rfl, rfl⟩, ?_, ?_, ?_⟩
    · intro items h
      exact absurd h (by simp)
    · intro p
      simp [fetchFromCacheEvents]
    · intro q
      simp [fetchFromCacheEvents]
  | some items =>
    refine ⟨fun h => absurd h (by simp), ?_, ?_, ?_⟩
    · intro items' h
      injection h with h'
      subst h'
      exact ⟨rfl, rfl⟩
    · intro p
      simp [fetchFromCacheEvents]
    · intro q
      simp [fetchFromCacheEvents]

theorem stackexchange_fetch_from_cache_witness :
    (fetch_from_cache (none : Option (List Question))
        = Except.error ⟨"cache instance was not provided"⟩ ∧
      fetchFromCacheEvents (none : Option (List Question)) = []) ∧
    (fetch_from_cache (some ["question-1"]) = Except.ok ["question-1"] ∧
      fetchFromCacheEvents (some ["question-1"])
        = ["question-1"].map Ev.yieldq) :=
  ⟨(stackexchange_fetch_from_cache_contract none).1 rfl,
   (stackexchange_fetch_from_cache_contract (some ["question-1"])).2.1
     ["question-1"] rfl⟩

/-- C8: the blame-output parser reproduces the repository's own test
vector exactly — on the single-group prefix it returns the one
fully-populated record, on the full input it returns the six records
in input group order, continuation groups carrying only {hash,
prev_line, this_line, lines, filename} — and, in general, every
successfully parsed output is such that a record whose (hash,
prev_line, this_line) triple already occurred in an earlier record of
the same `analyze()` call carries exactly those abbreviated-group
fields and no author, committer, summary or previous data. -/
theorem gitblame_continuation_groups :
    (analyze testBlameLines = Except.ok testBlameAnalyzed ∧
     analyze (testBlameLines.take 12)
        = Except.ok (testBlameAnalyzed.take 1)) ∧
    (∀ ls rs, analyze ls = Except.ok rs → goodFrom [] rs) := by
  constructor
  · exact ⟨by decide, by decide⟩
  · intro ls rs h
    have hInit : ParserInv ⟨[], none, []⟩ :=
      ⟨trivial, by simp, by simp, by simp, by simp⟩
    exact runLines_good ls ⟨[], none, []⟩ rs hInit h

theorem gitblame_continuation_groups_witness :
    goodFrom [] testBlameAnalyzed :=
  gitblame_continuation_groups.2 testBlameLines testBlameAnalyzed
    gitblame_continuation_groups.1.1

/-- C9: every request issued by the paged client carries the
connector-configured maximum page size, order "desc", sort "activity",
the source-specific tag filter, the site, the fixed response-shaping
filter token and the access token, and carries a `min` parameter equal
to the `since` bound's epoch seconds exactly when that bound is set. -/
theorem stackexchange_request_payload_contents (client : Client)
    (fd : Option Datetime) (resps : List Response) (p : Payload)
    (hp : p ∈ (get_questions client fd resps).requests) :
    p.pagesize = client.max_questions ∧ p.order = "desc" ∧
    p.sort = "activity" ∧ p.tagged = client.tagged ∧
    p.site = client.site ∧ p.key = client.token ∧
    p.filter = QUESTIONS_FILTER ∧ p.min = fd.map Datetime.epoch := by
  obtain ⟨k, hk⟩ := get_questions_requests_mem client fd resps p hp
  subst hk
  exact ⟨rfl, rfl, rfl, rfl, rfl, rfl, rfl, rfl⟩

theorem stackexchange_request_payload_witness :
    (buildPayload client0 1 (some ⟨1470075075⟩)).pagesize
        = client0.max_questions ∧
    (buildPayload client0 1 (some ⟨1470075075⟩)).order = "desc" ∧
    (buildPayload client0 1 (some ⟨1470075075⟩)).sort = "activity" ∧
    (buildPayload client0 1 (some ⟨1470075075⟩)).tagged = client0.tagged ∧
    (buildPayload client0 1 (some ⟨1470075075⟩)).site = client0.site ∧
    (buildPayload client0 1 (some ⟨1470075075⟩)).key = client0.token ∧
    (buildPayload client0 1 (some ⟨1470075075⟩)).filter = QUESTIONS_FILTER ∧
    (buildPayload client0 1 (some ⟨1470075075⟩)).min
        = (some (⟨1470075075⟩ : Datetime)).map Datetime.epoch :=
  stackexchange_request_payload_contents client0 (some ⟨1470075075⟩)
    [respLastPage] (buildPayload client0 1 (some ⟨1470075075⟩)) (by decide)

/-- C10: a `GitBlame` backend constructed with origin `None` or the
empty string gets the repository URI as its origin, while a non-empty
origin is kept unchanged; `uri` and `gitpath` are stored as given. -/
theorem gitblame_origin_default (uri gitpath : String)
    (origin : Option String) :
    (GitBlame.init uri gitpath none).origin = uri ∧
    (GitBlame.init uri gitpath (some "")).origin = uri ∧
    (∀ o : String, o ≠ "" → (GitBlame.init uri gitpath (some o)).origin = o) ∧
    (GitBlame.init uri gitpath origin).uri = uri ∧
    (GitBlame.init uri gitpath origin).gitpath = gitpath := by
  refine ⟨rfl, by simp [GitBlame.init, gitBlameOrigin], ?_, rfl, rfl⟩
  intro o ho
  simp [GitBlame.init, gitBlameOrigin, ho]

theorem gitblame_origin_default_witness :
    (GitBlame.init "http://example.com" "/tmp/gittest" (some "test")).origin
        = "test" :=
  (gitblame_origin_default "http://example.com" "/tmp/gittest"
    (some "test")).2.2.1 "test" (by decide)

end Perceval



